import Mathlib

/-!
Verification of the proxy-resolution engine of this repository.

The engine (source file `src/unnamed/part_000`) resolves, per outbound
HTTP/HTTPS request, the proxy specification string to use.  This file is a
shallow embedding of that code: JavaScript strings are Lean `String`s
manipulated through their `List Char` data (so that everything reduces in the
kernel), JavaScript `undefined`-or-string values are `Option String`, the two
`Map`s of the generational cache are association lists in insertion order
(mirroring `Map` iteration/size semantics), and the closure state mutated by
`setupProxyResolution` is an explicit `EngineState` record threaded through
the operations.  The asynchronous external resolver is represented by its two
continuations (`resolveProxyFulfilled`, `resolveProxyRejected`), and the
ten-minute flush timer by the `timeout` field plus an event-trace relation
(`ValidTrace`) in which the timer expiry is an explicit event that is only
enabled while the timer is armed.
-/

/-- The JS whitespace characters matched by `trim` and the `\s` regex class
(ASCII subset; the strings the source handles contain no exotic whitespace). -/
def jsWhitespaceChar (c : Char) : Bool :=
  decide (c = ' ') || decide (c = '\t') || decide (c = '\n') || decide (c = '\r') ||
    decide (c = Char.ofNat 11) || decide (c = Char.ofNat 12)

/-- JS `String.prototype.trim`: drop whitespace from both ends. -/
def jsTrim (s : String) : String :=
  ⟨((s.data.dropWhile jsWhitespaceChar).reverse.dropWhile jsWhitespaceChar).reverse⟩

/-- JS `String.prototype.toLowerCase` (ASCII). -/
def jsToLower (s : String) : String :=
  ⟨s.data.map Char.toLower⟩

/-- Split a character list at every occurrence of `c` (JS `split` with a
one-character separator and no limit). -/
def splitOnCharList (c : Char) : List Char → List (List Char)
  | [] => [[]]
  | x :: xs =>
    if x = c then [] :: splitOnCharList c xs
    else
      match splitOnCharList c xs with
      | [] => [[x]]
      | r :: rs => (x :: r) :: rs

/-- JS `s.split(c)` for a one-character separator. -/
def jsSplitOnChar (c : Char) (s : String) : List String :=
  (splitOnCharList c s.data).map String.mk

/-- Whether the first list is a prefix of the second (Boolean, structural). -/
def isPrefixList : List Char → List Char → Bool
  | [], _ => true
  | _ :: _, [] => false
  | a :: as, b :: bs => decide (a = b) && isPrefixList as bs

/-- JS `String.prototype.indexOf` restricted to what the source needs:
the index of the first occurrence of `pat`, or `none` for JS `-1`. -/
def indexOfList (pat : List Char) : List Char → Option Nat
  | [] => if isPrefixList pat [] then some 0 else none
  | l@(_ :: xs) => if isPrefixList pat l then some 0 else (indexOfList pat xs).map (· + 1)

/-- Whether `suffix` is a suffix of `l` (used for `endsWith` from
`vs/base/common/strings`). -/
def endsWithList (l suffix : List Char) : Bool :=
  isPrefixList suffix.reverse l.reverse

/-- `endsWith(s, suffix)` of `vs/base/common/strings`. -/
def jsEndsWith (s suffix : String) : Bool :=
  endsWithList s.data suffix.data

/-- `s.split(/\s+/, 1)[0]` for an already-trimmed `s`: the first
whitespace-delimited token. -/
def jsFirstToken (s : String) : String :=
  ⟨s.data.takeWhile (fun c => !(jsWhitespaceChar c))⟩

/-- JS truthiness of a `string | undefined` value: `undefined` and the empty
string are falsy. -/
def jsTruthy : Option String → Bool
  | none => false
  | some s => !(decide (s = ""))

/-- JS `a || b` for `a : string | null | undefined` and a string default. -/
def jsOrString : Option String → String → String
  | some s, b => if s = "" then b else s
  | none, b => b

/-- JS `s.split(':', 2)` as used by `noProxyFromEnv`: name before the first
colon, the piece between the first and second colon as the port (absent when
there is no colon). -/
def jsSplitColon2 (s : String) : String × Option String :=
  match jsSplitOnChar ':' s with
  | [] => ("", none)
  | [n] => (n, none)
  | n :: p :: _ => (n, some p)

/-! ## The two-generation proxy cache

Source lines 60-87: `cacheRolls`, `oldCache`, `cache`, `getCachedProxy`,
`cacheProxy`.  A JS `Map<string, string>` that (at runtime) may also store
`undefined` values is an association list with `Option String` values kept in
insertion order; `set` updates in place or appends, `size` is the length,
`delete` removes the keyed entry. -/

/-- The entries of one cache generation, in `Map` insertion order. -/
abbrev CacheMap := List (String × Option String)

/-- JS `Map.prototype.get`: `some v` when the key is present with stored value
`v`, `none` when absent (JS conflates the two as `undefined`; callers below
always go through `Option.join`, restoring exactly the JS behaviour). -/
def mapGet : CacheMap → String → Option (Option String)
  | [], _ => none
  | p :: m, k => if p.1 = k then some p.2 else mapGet m k

/-- JS `Map.prototype.has` (implicitly: whether `set` replaces or appends). -/
def mapHas : CacheMap → String → Bool
  | [], _ => false
  | p :: m, k => decide (p.1 = k) || mapHas m k

/-- JS `Map.prototype.set`: replace in place when present, append otherwise. -/
def mapSet (m : CacheMap) (k : String) (v : Option String) : CacheMap :=
  if mapHas m k then m.map (fun p => if p.1 = k then (k, v) else p) else m ++ [(k, v)]

/-- JS `Map.prototype.delete`. -/
def mapDelete (m : CacheMap) (k : String) : CacheMap :=
  m.filter (fun p => !(decide (p.1 = k)))

/-- Source line 40: `const maxCacheEntries = 5000;` (the comment there notes
the cache can grow to twice that because of `oldCache`). -/
def maxCacheEntries : Nat := 5000

/-- The closure variables `cache`, `oldCache`, `cacheRolls` of
`setupProxyResolution`. -/
structure CacheState where
  cache : CacheMap
  oldCache : CacheMap
  cacheRolls : Nat

/-- The state the closures start from: two empty generations, no rolls. -/
def initialCacheState : CacheState := ⟨[], [], 0⟩

/-- Source lines 79-87 (`cacheProxy`): insert, then, if the current generation
has reached `maxCacheEntries`, discard the previous generation, make the
current generation the previous one and start a fresh current generation. -/
def cacheProxy (cs : CacheState) (key : String) (proxy : Option String) : CacheState :=
  let cache := mapSet cs.cache key proxy
  if cache.length ≥ maxCacheEntries then
    { cache := [], oldCache := cache, cacheRolls := cs.cacheRolls + 1 }
  else
    { cs with cache := cache }

/-- Source lines 67-78 (`getCachedProxy`): check the current generation first;
on a (truthy) hit found only in the previous generation, remove it there and
re-insert it into the current generation via `cacheProxy`.  Returns the value
handed back together with the updated closure state. -/
def getCachedProxy (cs : CacheState) (key : String) : Option String × CacheState :=
  let proxy := (mapGet cs.cache key).join
  if jsTruthy proxy then
    (proxy, cs)
  else
    let proxy2 := (mapGet cs.oldCache key).join
    if jsTruthy proxy2 then
      (proxy2, cacheProxy { cs with oldCache := mapDelete cs.oldCache key } key proxy2)
    else
      (proxy2, cs)

/-! ## Engine state and `resolveProxy`

Source lines 42-185.  The per-period counters (lines 90-98), the flush timer
handle (line 89, modelled as the arming time), the settings/environment
proxies and the environment no-proxy predicate (lines 50-58) and the outcome
buckets (line 98) are the closure state of `setupProxyResolution`. -/

/-- Source lines 21-26: one outcome bucket of the telemetry period. -/
structure ConnectionResult where
  proxy : String
  connection : String
  code : String
  count : Nat
deriving DecidableEq

/-- The per-period resolution counters (source lines 90-97). -/
structure Counters where
  count : Nat
  duration : Nat
  errorCount : Nat
  cacheCount : Nat
  envCount : Nat
  settingsCount : Nat
  localhostCount : Nat
  envNoProxyCount : Nat
deriving DecidableEq

/-- All counters zero, as after a flush (source line 117). -/
def emptyCounters : Counters := ⟨0, 0, 0, 0, 0, 0, 0, 0⟩

/-- The closure state of `setupProxyResolution`.  `timeout` is the flush-timer
handle: `none` when no timer is pending, `some t` when a timer armed at time
`t` is pending.  `envNoProxy` is the compiled no-proxy predicate, and
`settingsProxy` / `envProxy` the parsed configuration values (lines 50-58). -/
structure EngineState where
  settingsProxy : Option String
  envProxy : Option String
  envNoProxy : String → String → Bool
  cacheState : CacheState
  timeout : Option Nat
  counters : Counters
  results : List ConnectionResult

/-- The payload of the `resolveProxy` telemetry event (source line 116). -/
structure TelemetryEvent where
  count : Nat
  duration : Nat
  errorCount : Nat
  cacheCount : Nat
  cacheSize : Nat
  cacheRolls : Nat
  envCount : Nat
  settingsCount : Nat
  localhostCount : Nat
  envNoProxyCount : Nat
  results : List ConnectionResult

/-- Source lines 99-119 (`logEvent`): clear the timer handle, emit the counter
snapshot (plus current cache size and roll count) and the ordered buckets,
then reset every counter and the bucket list.  The emitted event is the first
component, the updated closure state the second. -/
def logEvent (st : EngineState) : TelemetryEvent × EngineState :=
  (⟨st.counters.count, st.counters.duration, st.counters.errorCount, st.counters.cacheCount,
      st.cacheState.cache.length, st.cacheState.cacheRolls, st.counters.envCount,
      st.counters.settingsCount, st.counters.localhostCount, st.counters.envNoProxyCount,
      st.results⟩,
    { st with timeout := none, counters := emptyCounters, results := [] })

/-- The fields of Node's parsed URL that `resolveProxy` reads (`nodeurl.parse`
is an external library; the engine is modelled as receiving the parsed URL). -/
structure ParsedUrl where
  protocol : String
  hostname : String
  port : Option String
deriving DecidableEq

/-- Source lines 63-66 (`getCacheKey`): `nodeurl.format` with path, query and
fragment dropped — a string determined by scheme, host and port only.  The
exact `format` output is external library behaviour; this faithfully models
its restriction to the origin fields. -/
def getCacheKey (u : ParsedUrl) : String :=
  u.protocol ++ "//" ++ u.hostname ++
    (match u.port with
     | some p => ":" ++ p
     | none => "")

/-- Source line 129: the loopback hostname literals. -/
def isLoopbackHost (hostname : String) : Bool :=
  decide (hostname = "localhost") || decide (hostname = "127.0.0.1") ||
    decide (hostname = "::1") || decide (hostname = "::ffff:127.0.0.1")

/-- Source lines 122-124: arm the flush timer if and only if none is pending. -/
def armTimer (st : EngineState) (now : Nat) : EngineState :=
  if st.timeout = none then { st with timeout := some now } else st

/-- How one call of `resolveProxy` returns: synchronously with a callback
value, or by invoking the external asynchronous resolver (carrying the cache
key the eventual result will be stored under). -/
inductive ResolveOutcome where
  | sync (callbackValue : Option String) (st : EngineState)
  | async (key : String) (st : EngineState)

/-- The closure state after the synchronous part of the call. -/
def ResolveOutcome.state : ResolveOutcome → EngineState
  | .sync _ s => s
  | .async _ s => s

/-- Whether the callback was invoked synchronously. -/
def ResolveOutcome.isSync : ResolveOutcome → Bool
  | .sync _ _ => true
  | .async _ _ => false

/-- Source lines 121-182 (`resolveProxy`), synchronous part: arm the timer if
none is pending, then walk the precedence chain — loopback literal, no-proxy
predicate (with the request port or the agent's default port), settings proxy,
environment proxy, cache — short-circuiting on the first match; on a cache
miss, invoke the external resolver with the cache key.  `agentDefaultPort`
stands for `opts.agent.defaultPort`, `now` for the current time. -/
def resolveProxy (st : EngineState) (u : ParsedUrl) (agentDefaultPort : Nat) (now : Nat) :
    ResolveOutcome :=
  let st1 := armTimer st now
  if isLoopbackHost u.hostname then
    .sync (some "DIRECT")
      { st1 with counters := { st1.counters with localhostCount := st1.counters.localhostCount + 1 } }
  else if st1.envNoProxy u.hostname (jsOrString u.port (toString agentDefaultPort)) then
    .sync (some "DIRECT")
      { st1 with counters := { st1.counters with envNoProxyCount := st1.counters.envNoProxyCount + 1 } }
  else if jsTruthy st1.settingsProxy then
    .sync st1.settingsProxy
      { st1 with counters := { st1.counters with settingsCount := st1.counters.settingsCount + 1 } }
  else if jsTruthy st1.envProxy then
    .sync st1.envProxy
      { st1 with counters := { st1.counters with envCount := st1.counters.envCount + 1 } }
  else
    let key := getCacheKey u
    let pr := getCachedProxy st1.cacheState key
    if jsTruthy pr.1 then
      .sync pr.1
        { st1 with cacheState := pr.2,
                   counters := { st1.counters with cacheCount := st1.counters.cacheCount + 1 } }
    else
      .async key { st1 with cacheState := pr.2 }

/-- What an asynchronous completion does: the callback value it delivers, the
closure state it leaves, and the level at which it logs. -/
structure AsyncCompletion where
  callbackValue : Option String
  state : EngineState
  logLevel : String

/-- Source lines 169-176: the resolver's promise fulfilled with `proxy`
(possibly `undefined`).  The value — whatever it is — is stored in the cache,
outcome listeners are attached to the request (they touch `results` only at
the request's later terminal event), the callback receives the value, the
async-resolution counter and the accumulated latency are bumped, and the
result is logged at debug level. -/
def resolveProxyFulfilled (st : EngineState) (key : String) (proxy : Option String)
    (elapsed : Nat) : AsyncCompletion :=
  let st2 := { st with cacheState := cacheProxy st.cacheState key proxy }
  { callbackValue := proxy,
    state := { st2 with counters := { st2.counters with
        count := st2.counters.count + 1,
        duration := st2.counters.duration + elapsed } },
    logLevel := "debug" }

/-- Source lines 177-181: the resolver's promise rejected.  Nothing is cached,
the error counter is bumped, the callback is invoked with no value, the error
is logged at error level, and no retry is issued (the completion is final). -/
def resolveProxyRejected (st : EngineState) : AsyncCompletion :=
  { callbackValue := none,
    state := { st with counters := { st.counters with errorCount := st.counters.errorCount + 1 } },
    logLevel := "error" }

/-! ## Outcome collection

Source lines 187-210 (`collectResult`, `findOrCreateResult`).  `collectResult`
computes the bucket's proxy field from the resolved spec when the listeners
are attached; each terminal event then finds the bucket with the matching
(proxy, connection, code) triple — creating it with count 0 if absent — and
increments its count. -/

/-- Source line 188: `resolveProxy ? String(resolveProxy).trim().split(/\s+/, 1)[0] : 'EMPTY'` —
the first whitespace-delimited token of the trimmed spec, or `"EMPTY"` for a
falsy spec. -/
def extractProxyToken (resolveProxySpec : Option String) : String :=
  if jsTruthy resolveProxySpec then jsFirstToken (jsTrim (resolveProxySpec.getD "")) else "EMPTY"

/-- `findOrCreateResult` (source lines 201-210) composed with the `count++` at
its call sites (lines 192 and 197): bump the first bucket matching the triple,
appending a fresh bucket (created with count 0, then bumped to 1) when none
matches. -/
def recordConnectionResult : List ConnectionResult → String → String → String →
    List ConnectionResult
  | [], proxy, connection, code => [⟨proxy, connection, code, 1⟩]
  | r :: rs, proxy, connection, code =>
    if r.proxy = proxy ∧ r.connection = connection ∧ r.code = code then
      ⟨r.proxy, r.connection, r.code, r.count + 1⟩ :: rs
    else
      r :: recordConnectionResult rs proxy connection code

/-- Source lines 189-193: the `response` listener records
`HTTP_<statusCode>` for the spec's proxy token. -/
def collectResultOnResponse (results : List ConnectionResult) (resolveProxySpec : Option String)
    (connection : String) (statusCode : Nat) : List ConnectionResult :=
  recordConnectionResult results (extractProxyToken resolveProxySpec) connection
    ("HTTP_" ++ toString statusCode)

/-- Source lines 194-198: the `error` listener records the transport error
code when it is a truthy string, `UNKNOWN_ERROR` otherwise. -/
def collectResultOnError (results : List ConnectionResult) (resolveProxySpec : Option String)
    (connection : String) (errCode : Option String) : List ConnectionResult :=
  recordConnectionResult results (extractProxyToken resolveProxySpec) connection
    (if jsTruthy errCode then errCode.getD "" else "UNKNOWN_ERROR")

/-! ## The configured-proxy-URL parser (source lines 212-228) -/

/-- Source lines 212-228 (`proxyFromConfigURL`): trim, find `"://"`, map the
lower-cased scheme to the spec string, keep the remainder as-is. -/
def proxyFromConfigURL (configURL : Option String) : Option String :=
  let url := jsTrim (configURL.getD "")
  match indexOfList "://".data url.data with
  | none => none
  | some i =>
    let scheme := jsToLower ⟨url.data.take i⟩
    let proxy : String := ⟨url.data.drop (i + 3)⟩
    if scheme = "http" then some ("PROXY " ++ proxy)
    else if scheme = "https" then some ("HTTPS " ++ proxy)
    else if scheme = "socks" then some ("SOCKS " ++ proxy)
    else none

/-- The tagged proxy specification of the data model (spec section 3), with
its external serialization.  Used to state that the parser maps each scheme to
the corresponding tagged spec. -/
inductive ProxySpec where
  | direct
  | httpProxy (hostPort : String)
  | httpsProxy (hostPort : String)
  | socksProxy (hostPort : String)
deriving DecidableEq

/-- The space-separated token-pair serialization of a `ProxySpec`. -/
def ProxySpec.serialize : ProxySpec → String
  | .direct => "DIRECT"
  | .httpProxy hostPort => "PROXY " ++ hostPort
  | .httpsProxy hostPort => "HTTPS " ++ hostPort
  | .socksProxy hostPort => "SOCKS " ++ hostPort

/-- The scheme-to-spec mapping of the parser: `http`, `https`, `socks` map to
the tagged spec carrying the remainder; every other scheme to `none`. -/
def schemeToSpec (scheme hostPort : String) : Option ProxySpec :=
  if scheme = "http" then some (.httpProxy hostPort)
  else if scheme = "https" then some (.httpsProxy hostPort)
  else if scheme = "socks" then some (.socksProxy hostPort)
  else none

/-! ## The no-proxy list compiler (source lines 230-254) -/

/-- One compiled no-proxy rule: a leading-dot domain suffix and an optional
port constraint. -/
structure NoProxyFilter where
  domain : String
  port : Option String
deriving DecidableEq

/-- Whether a string starts with `'.'` (source line 245: `name[0] === '.'`). -/
def headIsDot (s : String) : Bool :=
  match s.data with
  | c :: _ => decide (c = '.')
  | [] => false

/-- Source lines 239-247: split the (already trimmed and lower-cased) value on
commas, split each trimmed entry on the first colon into name and port,
discard entries with an empty name, and normalize each name to a leading-dot
suffix. -/
def noProxyFilters (value : String) : List NoProxyFilter :=
  (((jsSplitOnChar ',' value).map (fun s => jsSplitColon2 (jsTrim s))).filter
      (fun f => !(decide (f.1 = "")))).map
    (fun f => ⟨if headIsDot f.1 then f.1 else "." ++ f.1, f.2⟩)

/-- Source lines 230-254 (`noProxyFromEnv`): trim and lower-case the raw
value; `"*"` compiles to the always-true predicate; no parsable entry to the
always-false predicate; otherwise a hostname/port pair matches when some rule's
domain is a suffix of `"." + hostname.toLowerCase()` and the rule either has a
falsy port or a port equal to the request's port. -/
def noProxyFromEnv (envValue : Option String) : String → String → Bool :=
  let value := jsToLower (jsTrim (envValue.getD ""))
  if value = "*" then fun _ _ => true
  else
    let filters := noProxyFilters value
    if filters.length = 0 then fun _ _ => false
    else fun hostname port =>
      filters.any (fun f =>
        jsEndsWith ("." ++ jsToLower hostname) f.domain &&
          (!(jsTruthy f.port) || decide (port = f.port.getD "")))

/-! ## The request interceptor (source lines 284-336)

The inner `patch`/`patched` of `patches`: per call, read the effective mode
(the per-call override fields when `onRequest` is set and one of them is
truthy, the live/fixed setting otherwise) and decide whether to delegate to
the original entry point with the arguments unmodified or with an options
object carrying a freshly constructed `ProxyAgent`. -/

/-- What the model needs of a caller-supplied agent: whether it is an
instance of `ProxyAgent` (source line 308). -/
structure Agent where
  proxyAgentInstance : Bool
deriving DecidableEq

/-- The call-option fields the decision reads.  Absent/falsy string fields are
modelled as `""` (JS string falsiness), a missing agent as `none`.
`vscodeProxySupport` and `vscodeSystemProxy` stand for the conventionally
named per-call override fields `_vscodeProxySupport` and `_vscodeSystemProxy`
(source line 303). -/
structure RequestOptions where
  socketPath : String
  agent : Option Agent
  vscodeProxySupport : String
  vscodeSystemProxy : String
deriving DecidableEq

/-- `options.agent instanceof ProxyAgent` with a missing agent being no
instance. -/
def agentIsProxyAgent : Option Agent → Bool
  | some a => a.proxyAgentInstance
  | none => false

/-- Source line 303: `onRequest && (options._vscodeProxySupport || options._vscodeSystemProxy) || setting.config`. -/
def effectiveConfig (onRequest : Bool) (opts : RequestOptions) (settingConfig : String) : String :=
  if onRequest = true ∧ (opts.vscodeProxySupport ≠ "" ∨ opts.vscodeSystemProxy ≠ "") then
    if opts.vscodeProxySupport ≠ "" then opts.vscodeProxySupport else opts.vscodeSystemProxy
  else settingConfig

/-- How `patched` delegates: to the original function with the original
arguments, or with options carrying a new `ProxyAgent` built with the scheme's
default port (443 for https, 80 for http; source lines 324-329). -/
inductive PatchCall where
  | originalUnmodified
  | originalWithProxyAgent (defaultPort : Nat)
deriving DecidableEq

/-- Source lines 290-335 (`patched`): mode `off` delegates unmodified; an
agent is substituted exactly when the socket path is unset, the mode is
`override` or the mode is `on` with no caller-supplied agent, and the supplied
agent is not already a `ProxyAgent`; otherwise delegate unmodified. -/
def patched (onRequest : Bool) (settingConfig : String) (isHttps : Bool)
    (opts : RequestOptions) : PatchCall :=
  let config := effectiveConfig onRequest opts settingConfig
  if config = "off" then .originalUnmodified
  else if opts.socketPath = "" ∧ (config = "override" ∨ (config = "on" ∧ opts.agent = none)) ∧
      agentIsProxyAgent opts.agent = false then
    .originalWithProxyAgent (if isHttps then 443 else 80)
  else .originalUnmodified

/-! ## Event traces for the flush timer (claim C9)

The timer expiry is modelled as an explicit event; a trace is valid when every
timer-expiry event occurs while a timer is pending.  Resolutions are the only
events that arm the timer, expiry (which runs `logEvent`) the only one that
clears it. -/

/-- The events of the single-threaded callback loop the timer claims range
over: a resolution entering `resolveProxy`, or the pending flush timer
expiring (which runs `logEvent`). -/
inductive EngineEvent where
  | resolve (u : ParsedUrl) (agentDefaultPort : Nat) (now : Nat)
  | timerFire

/-- The closure state after one event. -/
def stepEngine (st : EngineState) : EngineEvent → EngineState
  | .resolve u d t => (resolveProxy st u d t).state
  | .timerFire => (logEvent st).2

/-- A trace is valid from `st` when every `timerFire` happens while a timer is
pending (a timer that was never armed, or was cleared by a flush, cannot
expire). -/
def ValidTrace : EngineState → List EngineEvent → Prop
  | _, [] => True
  | st, e :: es => (e = .timerFire → st.timeout ≠ none) ∧ ValidTrace (stepEngine st e) es

/-- Inserting a sequence of (key, spec) pairs through `cacheProxy`, in order. -/
def insertAll (cs : CacheState) (ks : List (String × String)) : CacheState :=
  ks.foldl (fun s p => cacheProxy s p.1 (some p.2)) cs

/-! ## Concrete fixtures used by witnesses -/

/-- An engine state with nothing configured: no settings or environment proxy,
an always-false no-proxy predicate, empty cache, no pending timer, zero
counters, no buckets. -/
def testState : EngineState :=
  { settingsProxy := none, envProxy := none, envNoProxy := fun _ _ => false,
    cacheState := initialCacheState, timeout := none, counters := emptyCounters, results := [] }

/-- A non-loopback request URL. -/
def testUrl : ParsedUrl := ⟨"http:", "example.com", none⟩

/-- The i-th distinct cache key used for generation-rollover witnesses. -/
def testKey (i : Nat) : String := ⟨List.replicate (i + 1) 'k'⟩

/-- `maxCacheEntries + 1` distinct-key entries. -/
def bigKeyList : List (String × String) :=
  (List.range (maxCacheEntries + 1)).map (fun i => (testKey i, "P"))

example : jsTrim "  a b  " = "a b" := by decide
example : jsToLower "HTTP" = "http" := by decide
example : jsSplitOnChar ',' ".foo.com,bar.com:8080" = [".foo.com", "bar.com:8080"] := by decide
example : jsSplitColon2 "bar.com:8080" = ("bar.com", some "8080") := by decide
example : jsSplitColon2 "a:b:c" = ("a", some "b") := by decide
example : indexOfList "://".data "http://x".data = some 4 := by decide
example : jsEndsWith ".x.foo.com" ".foo.com" = true := by decide
example : jsFirstToken "PROXY a:b" = "PROXY" := by decide
example : mapGet (mapSet [] "k" (some "v")) "k" = some (some "v") := by decide
example : (cacheProxy initialCacheState "k" (some "v")).cache = [("k", some "v")] := by decide
example : (getCachedProxy ⟨[], [("k", some "v")], 1⟩ "k").1 = some "v" := by decide
example : (getCachedProxy ⟨[], [("k", some "v")], 1⟩ "k").2.cache = [("k", some "v")] := by decide
example : (getCachedProxy ⟨[], [("k", some "v")], 1⟩ "k").2.oldCache = [] := by decide
example : proxyFromConfigURL (some "http://proxy:8080") = some "PROXY proxy:8080" := by decide
example : proxyFromConfigURL (some "HTTP://Proxy:8080") = some "PROXY Proxy:8080" := by decide
example : proxyFromConfigURL (some "ftp://x") = none := by decide
example : proxyFromConfigURL (some "") = none := by decide
example : noProxyFromEnv (some ".foo.com,bar.com:8080") "x.foo.com" "99" = true := by decide
example : noProxyFromEnv (some ".foo.com,bar.com:8080") "bar.com" "8080" = true := by decide
example : noProxyFromEnv (some ".foo.com,bar.com:8080") "bar.com" "80" = false := by decide
example : noProxyFromEnv (some ".foo.com,bar.com:8080") "foo.com.evil.com" "80" = false := by decide
example : noProxyFromEnv (some " * ") "any.com" "80" = true := by decide
example : noProxyFromEnv (some "") "any.com" "80" = false := by decide
example : (fun p => noProxyFromEnv (some ".foo.com,bar.com:8080") "x.foo.com" p) = fun _ => true := by
  funext p; rfl
example : extractProxyToken (some "PROXY a:b") = "PROXY" := by decide
example : collectResultOnResponse (collectResultOnResponse [] (some "PROXY a:b") "HTTP" 200)
    (some "PROXY a:b") "HTTP" 200 = [⟨"PROXY", "HTTP", "HTTP_200", 2⟩] := by decide
example : patched true "on" false ⟨"", none, "", ""⟩ = .originalWithProxyAgent 80 := by decide
example : patched true "on" false ⟨"/tmp/s", none, "", ""⟩ = .originalUnmodified := by decide
example : patched true "override" true ⟨"", some ⟨true⟩, "", ""⟩ = .originalUnmodified := by decide
example : patched true "override" true ⟨"", some ⟨false⟩, "", ""⟩ = .originalWithProxyAgent 443 := by decide
example : patched true "on" false ⟨"", none, "off", ""⟩ = .originalUnmodified := by decide
example : patched false "on" false ⟨"", none, "off", ""⟩ = .originalWithProxyAgent 80 := by decide
example : (resolveProxy testState ⟨"http:", "localhost", none⟩ 80 0).isSync = true := by decide
example : (resolveProxy testState testUrl 80 0).isSync = false := by decide
example : (resolveProxy (resolveProxyFulfilled (resolveProxy testState testUrl 80 0).state
    (getCacheKey testUrl) (some "PROXY p:1") 5).state testUrl 80 9).isSync = true := by decide
example : (resolveProxy (resolveProxyFulfilled (resolveProxy testState testUrl 80 0).state
    (getCacheKey testUrl) none 5).state testUrl 80 9).isSync = false := by decide

/-! ## Map and cache lemmas -/

theorem mapHas_append (m1 m2 : CacheMap) (k : String) :
    mapHas (m1 ++ m2) k = (mapHas m1 k || mapHas m2 k) := by
  induction m1 with
  | nil => simp [mapHas]
  | cons p m ih => simp [mapHas, ih, Bool.or_assoc]

theorem mapGet_append_of_not_has (m1 m2 : CacheMap) (k : String) (h : mapHas m1 k = false) :
    mapGet (m1 ++ m2) k = mapGet m2 k := by
  induction m1 with
  | nil => simp
  | cons p m ih =>
    simp only [mapHas, Bool.or_eq_false_iff, decide_eq_false_iff_not] at h
    simp [mapGet, h.1, ih h.2]

theorem mapGet_map_update (m : CacheMap) (k : String) (v : Option String)
    (h : mapHas m k = true) :
    mapGet (m.map (fun p => if p.1 = k then (k, v) else p)) k = some v := by
  induction m with
  | nil => simp [mapHas] at h
  | cons p m ih =>
    by_cases hp : p.1 = k
    · simp [mapGet, hp]
    · simp only [mapHas, Bool.or_eq_true, decide_eq_true_eq] at h
      rcases h with h | h
    
      · exact absurd h hp
      · simp [mapGet, hp, ih h]

theorem mapGet_mapSet_self (m : CacheMap) (k : String) (v : Option String) :
    mapGet (mapSet m k v) k = some v := by
  by_cases h : mapHas m k = true
  · simp [mapSet, h, mapGet_map_update m k v h]
  · have h' : mapHas m k = false := by revert h; cases mapHas m k <;> simp
    rw [mapSet, if_neg (by simp [h']), mapGet_append_of_not_has m _ k h']
    simp [mapGet]

theorem length_mapSet_of_has (m : CacheMap) (k : String) (v : Option String)
    (h : mapHas m k = true) : (mapSet m k v).length = m.length := by
  simp [mapSet, h]

theorem length_mapSet_of_not_has (m : CacheMap) (k : String) (v : Option String)
    (h : mapHas m k = false) : (mapSet m k v).length = m.length + 1 := by
  simp [mapSet, h]

theorem length_mapSet_le (m : CacheMap) (k : String) (v : Option String) :
    (mapSet m k v).length ≤ m.length + 1 := by
  by_cases h : mapHas m k = true
  · rw [length_mapSet_of_has m k v h]; omega
  · have h' : mapHas m k = false := by revert h; cases mapHas m k <;> simp
    rw [length_mapSet_of_not_has m k v h']

theorem mapGet_mapDelete_self (m : CacheMap) (k : String) :
    mapGet (mapDelete m k) k = none := by
  induction m with
  | nil => rfl
  | cons p m ih =>
    by_cases hp : p.1 = k
    · simpa [mapDelete, List.filter, hp] using ih
    · simpa [mapDelete, List.filter, mapGet, hp] using ih

theorem mapGet_none_of_not_mem_keys (m : CacheMap) (k : String)
    (h : k ∉ m.map Prod.fst) : mapGet m k = none := by
  induction m with
  | nil => rfl
  | cons p m ih =>
    simp only [List.map_cons, List.mem_cons, not_or] at h
    have : ¬ (p.1 = k) := fun he => h.1 he.symm
    simp [mapGet, this, ih h.2]

theorem getCachedProxy_cache_hit (cs : CacheState) (k : String) (v : Option String)
    (h : mapGet cs.cache k = some v) (hv : jsTruthy v = true) :
    getCachedProxy cs k = (v, cs) := by
  have hj : (mapGet cs.cache k).join = v := by rw [h]; rfl
  simp only [getCachedProxy, hj, hv]
  simp

theorem getCachedProxy_promote (cs : CacheState) (k : String) (v : Option String)
    (hc : jsTruthy (mapGet cs.cache k).join = false)
    (ho : mapGet cs.oldCache k = some v) (hv : jsTruthy v = true) :
    getCachedProxy cs k = (v, cacheProxy { cs with oldCache := mapDelete cs.oldCache k } k v) := by
  have hj : (mapGet cs.oldCache k).join = v := by rw [ho]; rfl
  simp only [getCachedProxy, hc, hj, hv]
  simp

theorem getCachedProxy_miss (cs : CacheState) (k : String)
    (hc : jsTruthy (mapGet cs.cache k).join = false)
    (ho : jsTruthy (mapGet cs.oldCache k).join = false) :
    getCachedProxy cs k = ((mapGet cs.oldCache k).join, cs) := by
  simp only [getCachedProxy, hc, ho]
  simp

theorem cacheProxy_roll (cs : CacheState) (k : String) (v : Option String)
    (h : (mapSet cs.cache k v).length ≥ maxCacheEntries) :
    cacheProxy cs k v = ⟨[], mapSet cs.cache k v, cs.cacheRolls + 1⟩ := by
  simp [cacheProxy, h]

theorem cacheProxy_no_roll (cs : CacheState) (k : String) (v : Option String)
    (h : ¬ (mapSet cs.cache k v).length ≥ maxCacheEntries) :
    cacheProxy cs k v = { cs with cache := mapSet cs.cache k v } := by
  simp [cacheProxy, h]

theorem jsTruthy_some_ne (s : String) (h : s ≠ "") : jsTruthy (some s) = true := by
  simp [jsTruthy, h]

theorem getCachedProxy_after_cacheProxy (cs : CacheState) (k : String) (v : Option String)
    (hv : jsTruthy v = true) :
    (getCachedProxy (cacheProxy cs k v) k).1 = v := by
  by_cases h : (mapSet cs.cache k v).length ≥ maxCacheEntries
  · rw [cacheProxy_roll cs k v h]
    have ho : mapGet (⟨[], mapSet cs.cache k v, cs.cacheRolls + 1⟩ : CacheState).oldCache k
        = some v := mapGet_mapSet_self _ _ _
    rw [getCachedProxy_promote _ k v (by simp [mapGet, jsTruthy]) ho hv]
  · rw [cacheProxy_no_roll cs k v h]
    have hc : mapGet ({ cs with cache := mapSet cs.cache k v } : CacheState).cache k = some v :=
      mapGet_mapSet_self _ _ _
    rw [getCachedProxy_cache_hit _ k v hc hv]

/-! ## `armTimer` projections -/

@[simp] theorem armTimer_settingsProxy (st : EngineState) (t : Nat) :
    (armTimer st t).settingsProxy = st.settingsProxy := by
  unfold armTimer; split <;> rfl

@[simp] theorem armTimer_envProxy (st : EngineState) (t : Nat) :
    (armTimer st t).envProxy = st.envProxy := by
  unfold armTimer; split <;> rfl

@[simp] theorem armTimer_envNoProxy (st : EngineState) (t : Nat) :
    (armTimer st t).envNoProxy = st.envNoProxy := by
  unfold armTimer; split <;> rfl

@[simp] theorem armTimer_cacheState (st : EngineState) (t : Nat) :
    (armTimer st t).cacheState = st.cacheState := by
  unfold armTimer; split <;> rfl

@[simp] theorem armTimer_counters (st : EngineState) (t : Nat) :
    (armTimer st t).counters = st.counters := by
  unfold armTimer; split <;> rfl

@[simp] theorem armTimer_results (st : EngineState) (t : Nat) :
    (armTimer st t).results = st.results := by
  unfold armTimer; split <;> rfl

theorem armTimer_timeout_of_none (st : EngineState) (t : Nat) (h : st.timeout = none) :
    (armTimer st t).timeout = some t := by
  simp [armTimer, h]

theorem armTimer_timeout_of_some (st : EngineState) (t t0 : Nat) (h : st.timeout = some t0) :
    (armTimer st t).timeout = some t0 := by
  simp [armTimer, h]

theorem armTimer_of_some (st : EngineState) (t t0 : Nat) (h : st.timeout = some t0) :
    armTimer st t = st := by
  simp [armTimer, h]

/-! ## `resolveProxy` branch lemmas -/

theorem resolveProxy_state_timeout (st : EngineState) (u : ParsedUrl) (d t : Nat) :
    ((resolveProxy st u d t).state).timeout = (armTimer st t).timeout := by
  unfold resolveProxy
  dsimp only
  repeat' split
  all_goals rfl

theorem resolveProxy_localhost (st : EngineState) (u : ParsedUrl) (d t : Nat)
    (h : isLoopbackHost u.hostname = true) :
    resolveProxy st u d t = .sync (some "DIRECT")
      { armTimer st t with counters := { (armTimer st t).counters with
          localhostCount := (armTimer st t).counters.localhostCount + 1 } } := by
  unfold resolveProxy
  dsimp only
  rw [h]
  simp

theorem resolveProxy_envNoProxy (st : EngineState) (u : ParsedUrl) (d t : Nat)
    (h1 : isLoopbackHost u.hostname = false)
    (h2 : st.envNoProxy u.hostname (jsOrString u.port (toString d)) = true) :
    resolveProxy st u d t = .sync (some "DIRECT")
      { armTimer st t with counters := { (armTimer st t).counters with
          envNoProxyCount := (armTimer st t).counters.envNoProxyCount + 1 } } := by
  unfold resolveProxy
  dsimp only
  rw [h1, armTimer_envNoProxy, h2]
  simp

theorem resolveProxy_settings (st : EngineState) (u : ParsedUrl) (d t : Nat)
    (h1 : isLoopbackHost u.hostname = false)
    (h2 : st.envNoProxy u.hostname (jsOrString u.port (toString d)) = false)
    (h3 : jsTruthy st.settingsProxy = true) :
    resolveProxy st u d t = .sync st.settingsProxy
      { armTimer st t with counters := { (armTimer st t).counters with
          settingsCount := (armTimer st t).counters.settingsCount + 1 } } := by
  unfold resolveProxy
  dsimp only
  rw [h1, armTimer_envNoProxy, h2, armTimer_settingsProxy, h3]
  simp

theorem resolveProxy_env (st : EngineState) (u : ParsedUrl) (d t : Nat)
    (h1 : isLoopbackHost u.hostname = false)
    (h2 : st.envNoProxy u.hostname (jsOrString u.port (toString d)) = false)
    (h3 : jsTruthy st.settingsProxy = false)
    (h4 : jsTruthy st.envProxy = true) :
    resolveProxy st u d t = .sync st.envProxy
      { armTimer st t with counters := { (armTimer st t).counters with
          envCount := (armTimer st t).counters.envCount + 1 } } := by
  unfold resolveProxy
  dsimp only
  rw [h1, armTimer_envNoProxy, h2, armTimer_settingsProxy, h3, armTimer_envProxy, h4]
  simp

theorem resolveProxy_cache_hit (st : EngineState) (u : ParsedUrl) (d t : Nat)
    (h1 : isLoopbackHost u.hostname = false)
    (h2 : st.envNoProxy u.hostname (jsOrString u.port (toString d)) = false)
    (h3 : jsTruthy st.settingsProxy = false)
    (h4 : jsTruthy st.envProxy = false)
    (h5 : jsTruthy (getCachedProxy st.cacheState (getCacheKey u)).1 = true) :
    resolveProxy st u d t = .sync (getCachedProxy st.cacheState (getCacheKey u)).1
      { armTimer st t with
        cacheState := (getCachedProxy st.cacheState (getCacheKey u)).2,
        counters := { (armTimer st t).counters with
          cacheCount := (armTimer st t).counters.cacheCount + 1 } } := by
  unfold resolveProxy
  dsimp only
  rw [h1, armTimer_envNoProxy, h2, armTimer_settingsProxy, h3, armTimer_envProxy, h4,
    armTimer_cacheState, h5]
  simp

theorem resolveProxy_cache_miss (st : EngineState) (u : ParsedUrl) (d t : Nat)
    (h1 : isLoopbackHost u.hostname = false)
    (h2 : st.envNoProxy u.hostname (jsOrString u.port (toString d)) = false)
    (h3 : jsTruthy st.settingsProxy = false)
    (h4 : jsTruthy st.envProxy = false)
    (h5 : jsTruthy (getCachedProxy st.cacheState (getCacheKey u)).1 = false) :
    resolveProxy st u d t = .async (getCacheKey u)
      { armTimer st t with cacheState := (getCachedProxy st.cacheState (getCacheKey u)).2 } := by
  unfold resolveProxy
  dsimp only
  rw [h1, armTimer_envNoProxy, h2, armTimer_settingsProxy, h3, armTimer_envProxy, h4,
    armTimer_cacheState, h5]
  simp

/-! ## Bulk-insertion lemmas for the rollover scenario -/

theorem insertAll_cons (cs : CacheState) (p : String × String) (ks : List (String × String)) :
    insertAll cs (p :: ks) = insertAll (cacheProxy cs p.1 (some p.2)) ks := rfl

theorem insertAll_append (cs : CacheState) (l1 l2 : List (String × String)) :
    insertAll cs (l1 ++ l2) = insertAll (insertAll cs l1) l2 := by
  simp [insertAll, List.foldl_append]

theorem insertAll_fresh_no_roll (ks : List (String × String)) :
    ∀ cs : CacheState, (∀ p ∈ ks, mapHas cs.cache p.1 = false) →
      (ks.map Prod.fst).Nodup →
      cs.cache.length + ks.length < maxCacheEntries →
      insertAll cs ks = { cs with cache := cs.cache ++ ks.map (fun p => (p.1, some p.2)) } := by
  induction ks with
  | nil => intro cs _ _ _; simp [insertAll]
  | cons p ks ih =>
    intro cs hfresh hnd hlen
    rw [insertAll_cons]
    have hf : mapHas cs.cache p.1 = false := hfresh p (by simp)
    have hset : mapSet cs.cache p.1 (some p.2) = cs.cache ++ [(p.1, some p.2)] := by
      simp [mapSet, hf]
    have hlen1 : (mapSet cs.cache p.1 (some p.2)).length = cs.cache.length + 1 :=
      length_mapSet_of_not_has _ _ _ hf
    have hnr : ¬ (mapSet cs.cache p.1 (some p.2)).length ≥ maxCacheEntries := by
      simp only [List.length_cons] at hlen
      omega
    rw [cacheProxy_no_roll _ _ _ hnr]
    simp only [List.map_cons, List.nodup_cons] at hnd
    rw [ih _ ?fresh hnd.2 ?len]
    case fresh =>
      intro q hq
      have hfq : mapHas cs.cache q.1 = false := hfresh q (by simp [hq])
      have hne : ¬ (p.1 = q.1) := fun he => hnd.1 (he ▸ List.mem_map_of_mem Prod.fst hq)
      rw [hset]
      simp [mapHas_append, hfq, mapHas, hne]
    case len =>
      dsimp only
      rw [hlen1]
      simp only [List.length_cons] at hlen
      omega
    simp [hset, List.append_assoc]

theorem insertAll_fresh_roll (ks : List (String × String)) :
    ∀ cs : CacheState, ks ≠ [] → (∀ p ∈ ks, mapHas cs.cache p.1 = false) →
      (ks.map Prod.fst).Nodup →
      cs.cache.length + ks.length = maxCacheEntries →
      insertAll cs ks =
        ⟨[], cs.cache ++ ks.map (fun p => (p.1, some p.2)), cs.cacheRolls + 1⟩ := by
  induction ks with
  | nil => intro cs h _ _ _; exact absurd rfl h
  | cons p ks ih =>
    intro cs _ hfresh hnd hlen
    rw [insertAll_cons]
    have hf : mapHas cs.cache p.1 = false := hfresh p (by simp)
    have hset : mapSet cs.cache p.1 (some p.2) = cs.cache ++ [(p.1, some p.2)] := by
      simp [mapSet, hf]
    have hlen1 : (mapSet cs.cache p.1 (some p.2)).length = cs.cache.length + 1 :=
      length_mapSet_of_not_has _ _ _ hf
    by_cases hks : ks = []
    · subst hks
      have hr : (mapSet cs.cache p.1 (some p.2)).length ≥ maxCacheEntries := by
        simp only [List.length_cons, List.length_nil] at hlen
        omega
      show cacheProxy cs p.1 (some p.2) = _
      rw [cacheProxy_roll _ _ _ hr, hset]
      simp
    · have hnr : ¬ (mapSet cs.cache p.1 (some p.2)).length ≥ maxCacheEntries := by
        have hpos : ks.length ≥ 1 := by
          cases ks with
          | nil => exact absurd rfl hks
          | cons a l => simp
        simp only [List.length_cons] at hlen
        omega
      rw [cacheProxy_no_roll _ _ _ hnr]
      simp only [List.map_cons, List.nodup_cons] at hnd
      rw [ih _ hks ?fresh hnd.2 ?len]
      case fresh =>
        intro q hq
        have hfq : mapHas cs.cache q.1 = false := hfresh q (by simp [hq])
        have hne : ¬ (p.1 = q.1) := fun he => hnd.1 (he ▸ List.mem_map_of_mem Prod.fst hq)
        rw [hset]
        simp [mapHas_append, hfq, mapHas, hne]
      case len =>
        dsimp only
        rw [hlen1]
        simp only [List.length_cons] at hlen
        omega
      simp [hset, List.append_assoc]

theorem insertAll_roll_plus_one (ks : List (String × String))
    (hnd : (ks.map Prod.fst).Nodup) (hlen : ks.length = maxCacheEntries + 1) :
    insertAll initialCacheState ks =
      ⟨(ks.drop maxCacheEntries).map (fun p => (p.1, some p.2)),
       (ks.take maxCacheEntries).map (fun p => (p.1, some p.2)), 1⟩ := by
  have hsplit : ks.take maxCacheEntries ++ ks.drop maxCacheEntries = ks :=
    List.take_append_drop maxCacheEntries ks
  have htl : (ks.take maxCacheEntries).length = maxCacheEntries := by
    rw [List.length_take, hlen]
    omega
  have hdl : (ks.drop maxCacheEntries).length = 1 := by
    rw [List.length_drop, hlen]
    omega
  have hndtd : ((ks.take maxCacheEntries).map Prod.fst).Nodup :=
    hnd.sublist ((List.take_sublist maxCacheEntries ks).map Prod.fst)
  obtain ⟨q, hq⟩ := List.length_eq_one.mp hdl
  have h1 : insertAll initialCacheState (ks.take maxCacheEntries) =
      ⟨[], (ks.take maxCacheEntries).map (fun p => (p.1, some p.2)), 1⟩ := by
    have := insertAll_fresh_roll (ks.take maxCacheEntries) initialCacheState
      (by intro h; rw [h] at htl; simp [maxCacheEntries] at htl)
      (by intro p _; rfl) hndtd (by simp [initialCacheState, htl])
    simpa [initialCacheState] using this
  calc insertAll initialCacheState ks
      = insertAll (insertAll initialCacheState (ks.take maxCacheEntries))
          (ks.drop maxCacheEntries) := by rw [← insertAll_append, hsplit]
    _ = insertAll ⟨[], (ks.take maxCacheEntries).map (fun p => (p.1, some p.2)), 1⟩ [q] := by
        rw [h1, hq]
    _ = ⟨(ks.drop maxCacheEntries).map (fun p => (p.1, some p.2)),
         (ks.take maxCacheEntries).map (fun p => (p.1, some p.2)), 1⟩ := by
        rw [hq]
        have hstep : insertAll
            ⟨[], (ks.take maxCacheEntries).map (fun p => (p.1, some p.2)), 1⟩ [q] =
            cacheProxy ⟨[], (ks.take maxCacheEntries).map (fun p => (p.1, some p.2)), 1⟩
              q.1 (some q.2) := rfl
        rw [hstep, cacheProxy_no_roll _ _ _ (by simp [mapSet, mapHas, maxCacheEntries])]
        simp [mapSet, mapHas]

theorem mapGet_map_some_of_mem (ks : List (String × String)) (p : String × String)
    (hnd : (ks.map Prod.fst).Nodup) (hp : p ∈ ks) :
    mapGet (ks.map (fun q => (q.1, some q.2))) p.1 = some (some p.2) := by
  induction ks with
  | nil => cases hp
  | cons q ks ih =>
    simp only [List.map_cons, List.nodup_cons] at hnd
    rcases List.mem_cons.mp hp with rfl | hp
    · simp [mapGet]
    · have hq : ¬ (q.1 = p.1) := fun he => hnd.1 (he ▸ List.mem_map_of_mem Prod.fst hp)
      simp only [List.map_cons, mapGet, hq, if_false]
      exact ih hnd.2 hp

theorem take_drop_keys_disjoint (ks : List (String × String)) (n : Nat)
    (hnd : (ks.map Prod.fst).Nodup) (p q : String × String)
    (hp : p ∈ ks.take n) (hq : q ∈ ks.drop n) : p.1 ≠ q.1 := by
  have hnd' : ((ks.take n ++ ks.drop n).map Prod.fst).Nodup := by
    rw [List.take_append_drop]; exact hnd
  rw [List.map_append] at hnd'
  have hdisj := (List.nodup_append.mp hnd').2.2
  intro he
  exact hdisj (List.mem_map_of_mem Prod.fst hp) (he ▸ List.mem_map_of_mem Prod.fst hq)

theorem cacheProxy_bound (cs : CacheState) (k : String) (v : Option String)
    (h1 : cs.cache.length < maxCacheEntries) (h2 : cs.oldCache.length ≤ maxCacheEntries) :
    (cacheProxy cs k v).cache.length < maxCacheEntries ∧
      (cacheProxy cs k v).oldCache.length ≤ maxCacheEntries := by
  by_cases h : (mapSet cs.cache k v).length ≥ maxCacheEntries
  · rw [cacheProxy_roll _ _ _ h]
    refine ⟨by simp [maxCacheEntries], ?_⟩
    have := length_mapSet_le cs.cache k v
    dsimp only
    omega
  · rw [cacheProxy_no_roll _ _ _ h]
    exact ⟨by dsimp only; omega, h2⟩

theorem getCachedProxy_bound (cs : CacheState) (k : String)
    (h1 : cs.cache.length < maxCacheEntries) (h2 : cs.oldCache.length ≤ maxCacheEntries) :
    (getCachedProxy cs k).2.cache.length < maxCacheEntries ∧
      (getCachedProxy cs k).2.oldCache.length ≤ maxCacheEntries := by
  unfold getCachedProxy
  dsimp only
  split
  · exact ⟨h1, h2⟩
  · split
    · exact cacheProxy_bound _ _ _ h1 (le_trans (List.length_filter_le _ _) h2)
    · exact ⟨h1, h2⟩

/-! ## Claim C2 -/

/-- C2: the two-generation proxy cache preserves its invariant across every
lookup and insertion.  (1) A lookup checks the current generation first: a
truthy hit there is returned with the state unchanged.  (2) A hit found only
in the previous generation is removed from `oldCache` and re-inserted into the
current generation.  (3) When an insertion makes the current generation reach
`maxCacheEntries` (5000), the previous generation is discarded, the current
generation becomes the new previous one and a fresh empty current generation
is started.  (4) Both operations preserve the size invariant `current < 5000 ∧
previous ≤ 5000`, so the total number of live entries stays below twice the
capacity.  (5) After inserting `maxCacheEntries + 1` distinct-key truthy
entries into the empty cache, each of the first 5000 entries is still
retrievable: the lookup returns its spec, re-inserts it into the current
generation and removes it from the previous generation (which clause (3) shows
survives only until a second rollover replaces it). -/
theorem C2_cache_generations :
    (∀ (cs : CacheState) (k : String) (v : Option String),
        mapGet cs.cache k = some v → jsTruthy v = true →
        getCachedProxy cs k = (v, cs))
  ∧ (∀ (cs : CacheState) (k : String) (v : Option String),
        jsTruthy (mapGet cs.cache k).join = false →
        mapGet cs.oldCache k = some v → jsTruthy v = true →
        getCachedProxy cs k =
          (v, cacheProxy { cs with oldCache := mapDelete cs.oldCache k } k v))
  ∧ (∀ (cs : CacheState) (k : String) (v : Option String),
        (mapSet cs.cache k v).length ≥ maxCacheEntries →
        cacheProxy cs k v = ⟨[], mapSet cs.cache k v, cs.cacheRolls + 1⟩)
  ∧ (∀ (cs : CacheState) (k : String) (v : Option String),
        cs.cache.length < maxCacheEntries → cs.oldCache.length ≤ maxCacheEntries →
        ((cacheProxy cs k v).cache.length < maxCacheEntries ∧
          (cacheProxy cs k v).oldCache.length ≤ maxCacheEntries ∧
          (cacheProxy cs k v).cache.length + (cacheProxy cs k v).oldCache.length ≤
            2 * maxCacheEntries) ∧
        ((getCachedProxy cs k).2.cache.length < maxCacheEntries ∧
          (getCachedProxy cs k).2.oldCache.length ≤ maxCacheEntries ∧
          (getCachedProxy cs k).2.cache.length + (getCachedProxy cs k).2.oldCache.length ≤
            2 * maxCacheEntries))
  ∧ (∀ ks : List (String × String),
        (ks.map Prod.fst).Nodup →
        (∀ p ∈ ks, p.2 ≠ "") →
        ks.length = maxCacheEntries + 1 →
        ∀ p ∈ ks.take maxCacheEntries,
          (getCachedProxy (insertAll initialCacheState ks) p.1).1 = some p.2 ∧
          mapGet (getCachedProxy (insertAll initialCacheState ks) p.1).2.cache p.1 =
            some (some p.2) ∧
          mapGet (getCachedProxy (insertAll initialCacheState ks) p.1).2.oldCache p.1 = none) := by
  refine ⟨getCachedProxy_cache_hit, getCachedProxy_promote, cacheProxy_roll, ?_, ?_⟩
  · intro cs k v h1 h2
    have hb := cacheProxy_bound cs k v h1 h2
    have hg := getCachedProxy_bound cs k h1 h2
    exact ⟨⟨hb.1, hb.2, by omega⟩, ⟨hg.1, hg.2, by omega⟩⟩
  · intro ks hnd hvals hlen p hp
    have hs := insertAll_roll_plus_one ks hnd hlen
    have hdl : ((ks.drop maxCacheEntries).map
        (fun p => (p.1, some p.2)) : CacheMap).length = 1 := by
      rw [List.length_map, List.length_drop, hlen]
      omega
    have hndtd : ((ks.take maxCacheEntries).map Prod.fst).Nodup :=
      hnd.sublist ((List.take_sublist maxCacheEntries ks).map Prod.fst)
    have hnotin : p.1 ∉ ((ks.drop maxCacheEntries).map
        (fun p => (p.1, some p.2))).map Prod.fst := by
      intro hmem
      obtain ⟨x, hx, hx2⟩ := List.mem_map.mp hmem
      obtain ⟨qq, hqq, rfl⟩ := List.mem_map.mp hx
      exact take_drop_keys_disjoint ks maxCacheEntries hnd p qq hp hqq hx2.symm
    have hc : mapGet ((ks.drop maxCacheEntries).map (fun p => (p.1, some p.2))) p.1 = none :=
      mapGet_none_of_not_mem_keys _ _ hnotin
    have hcf : jsTruthy ((mapGet ((ks.drop maxCacheEntries).map
        (fun p => (p.1, some p.2))) p.1).join) = false := by
      rw [hc]; rfl
    have ho : mapGet ((ks.take maxCacheEntries).map (fun q => (q.1, some q.2))) p.1 =
        some (some p.2) :=
      mapGet_map_some_of_mem _ p hndtd hp
    have hv : jsTruthy (some p.2) = true :=
      jsTruthy_some_ne _ (hvals p (List.take_subset _ _ hp))
    rw [hs]
    have hpr := getCachedProxy_promote
      ⟨(ks.drop maxCacheEntries).map (fun p => (p.1, some p.2)),
       (ks.take maxCacheEntries).map (fun p => (p.1, some p.2)), 1⟩ p.1 (some p.2) hcf ho hv
    rw [hpr]
    have hnr : ¬ (mapSet ((ks.drop maxCacheEntries).map (fun p => (p.1, some p.2)))
        p.1 (some p.2)).length ≥ maxCacheEntries := by
      have hle := length_mapSet_le ((ks.drop maxCacheEntries).map (fun p => (p.1, some p.2)))
        p.1 (some p.2)
      rw [hdl] at hle
      have hmax : maxCacheEntries = 5000 := rfl
      omega
    refine ⟨rfl, ?_, ?_⟩
    · rw [cacheProxy_no_roll _ _ _ hnr]
      exact mapGet_mapSet_self _ _ _
    · rw [cacheProxy_no_roll _ _ _ hnr]
      exact mapGet_mapDelete_self _ _

theorem testKey_inj : Function.Injective testKey := by
  intro i j h
  have h2 : List.replicate (i + 1) 'k' = List.replicate (j + 1) 'k' := congrArg String.data h
  have h3 := congrArg List.length h2
  simpa using h3

theorem bigKeyList_nodup : (bigKeyList.map Prod.fst).Nodup := by
  rw [bigKeyList, List.map_map]
  have he : (Prod.fst ∘ fun i => (testKey i, "P")) = testKey := rfl
  rw [he]
  exact (List.nodup_range _).map testKey_inj

theorem bigKeyList_vals : ∀ p ∈ bigKeyList, p.2 ≠ "" := by
  intro p hp
  rw [bigKeyList] at hp
  obtain ⟨i, _, rfl⟩ := List.mem_map.mp hp
  simp

theorem bigKeyList_length : bigKeyList.length = maxCacheEntries + 1 := by
  simp [bigKeyList]

theorem mem_take_bigKeyList : (testKey 0, "P") ∈ bigKeyList.take maxCacheEntries := by
  rw [bigKeyList, ← List.map_take, List.take_range]
  exact List.mem_map_of_mem _ (by simp [List.mem_range, maxCacheEntries])

set_option maxRecDepth 2000 in
/-- C2 witness: in the concrete run that inserts `maxCacheEntries + 1`
distinct-origin entries into the empty cache, the first entry is still
retrievable from the previous generation, with promotion into the current
generation. -/
theorem C2_cache_generations_witness :
    (getCachedProxy (insertAll initialCacheState bigKeyList) (testKey 0)).1 = some "P" ∧
    mapGet (getCachedProxy (insertAll initialCacheState bigKeyList) (testKey 0)).2.cache
      (testKey 0) = some (some "P") := by
  have h := C2_cache_generations.2.2.2.2 bigKeyList bigKeyList_nodup bigKeyList_vals
    bigKeyList_length (testKey 0, "P") mem_take_bigKeyList
  have e1 : ((testKey 0, "P") : String × String).1 = testKey 0 := rfl
  have e2 : ((testKey 0, "P") : String × String).2 = "P" := rfl
  rw [e1, e2] at h
  exact ⟨h.1, h.2.1⟩

/-! ## Claim C1 -/

/-- C1: `resolveProxy` evaluates its precedence chain strictly in order,
short-circuiting on the first match.  For a loopback hostname (`localhost`,
`127.0.0.1`, `::1`, `::ffff:127.0.0.1`) the callback is invoked synchronously
with `DIRECT` for every engine state, i.e. regardless of cache, environment
and settings state.  Otherwise, when the no-proxy predicate matches, the
callback is invoked synchronously with `DIRECT`; when it does not match, a
truthy settings proxy is returned in preference to the environment proxy,
which is returned in preference to a truthy cached entry, which is returned
in preference to invoking the external asynchronous resolver (the `async`
outcome, which is reached only when everything earlier declined). -/
theorem C1_resolve_precedence (st : EngineState) (u : ParsedUrl) (d t : Nat) :
    (isLoopbackHost u.hostname = true →
        resolveProxy st u d t = .sync (some "DIRECT")
          { armTimer st t with counters := { (armTimer st t).counters with
              localhostCount := (armTimer st t).counters.localhostCount + 1 } })
  ∧ (isLoopbackHost u.hostname = false →
      st.envNoProxy u.hostname (jsOrString u.port (toString d)) = true →
        resolveProxy st u d t = .sync (some "DIRECT")
          { armTimer st t with counters := { (armTimer st t).counters with
              envNoProxyCount := (armTimer st t).counters.envNoProxyCount + 1 } })
  ∧ (isLoopbackHost u.hostname = false →
      st.envNoProxy u.hostname (jsOrString u.port (toString d)) = false →
      jsTruthy st.settingsProxy = true →
        resolveProxy st u d t = .sync st.settingsProxy
          { armTimer st t with counters := { (armTimer st t).counters with
              settingsCount := (armTimer st t).counters.settingsCount + 1 } })
  ∧ (isLoopbackHost u.hostname = false →
      st.envNoProxy u.hostname (jsOrString u.port (toString d)) = false →
      jsTruthy st.settingsProxy = false →
      jsTruthy st.envProxy = true →
        resolveProxy st u d t = .sync st.envProxy
          { armTimer st t with counters := { (armTimer st t).counters with
              envCount := (armTimer st t).counters.envCount + 1 } })
  ∧ (isLoopbackHost u.hostname = false →
      st.envNoProxy u.hostname (jsOrString u.port (toString d)) = false →
      jsTruthy st.settingsProxy = false →
      jsTruthy st.envProxy = false →
      jsTruthy (getCachedProxy st.cacheState (getCacheKey u)).1 = true →
        resolveProxy st u d t = .sync (getCachedProxy st.cacheState (getCacheKey u)).1
          { armTimer st t with
            cacheState := (getCachedProxy st.cacheState (getCacheKey u)).2,
            counters := { (armTimer st t).counters with
              cacheCount := (armTimer st t).counters.cacheCount + 1 } })
  ∧ (isLoopbackHost u.hostname = false →
      st.envNoProxy u.hostname (jsOrString u.port (toString d)) = false →
      jsTruthy st.settingsProxy = false →
      jsTruthy st.envProxy = false →
      jsTruthy (getCachedProxy st.cacheState (getCacheKey u)).1 = false →
        resolveProxy st u d t = .async (getCacheKey u)
          { armTimer st t with cacheState := (getCachedProxy st.cacheState (getCacheKey u)).2 }) :=
  ⟨resolveProxy_localhost st u d t,
   resolveProxy_envNoProxy st u d t,
   resolveProxy_settings st u d t,
   resolveProxy_env st u d t,
   resolveProxy_cache_hit st u d t,
   resolveProxy_cache_miss st u d t⟩

/-- An engine state with a settings proxy, an environment proxy and a cached
entry all configured at once. -/
def fullyConfiguredState : EngineState :=
  { testState with
    settingsProxy := some "PROXY s:1"
    envProxy := some "HTTPS e:2"
    cacheState := ⟨[("http://example.com", some "PROXY c:3")], [], 0⟩ }

/-- C1 witness: a loopback request is answered `DIRECT` synchronously even
with a settings proxy, an environment proxy and a cached entry configured;
and with all of those configured on a non-loopback request the settings proxy
wins. -/
theorem C1_resolve_precedence_witness :
    (resolveProxy fullyConfiguredState ⟨"http:", "localhost", none⟩ 80 3).state.counters.localhostCount = 1 ∧
    resolveProxy fullyConfiguredState testUrl 80 3 = .sync (some "PROXY s:1")
      { fullyConfiguredState with
        timeout := some 3
        counters := { emptyCounters with settingsCount := 1 } } := by
  constructor
  · rw [(C1_resolve_precedence _ ⟨"http:", "localhost", none⟩ 80 3).1 (by decide)]
    rfl
  · rw [(C1_resolve_precedence fullyConfiguredState testUrl 80 3).2.2.1 (by decide) (by decide)
      (by decide)]
    rfl

/-! ## Claim C3 -/

/-- Call options with no agent and no per-call override, but with a socket
path set. -/
def socketPathOptions : RequestOptions := ⟨"/tmp/sock", none, "", ""⟩

/-- Call options with nothing set at all. -/
def plainOptions : RequestOptions := ⟨"", none, "", ""⟩

/-- C3 counterexample: the claim says that in mode `on` an agent is
substituted exactly when the caller did not already supply one.  With mode
`on`, no caller-supplied agent, but a socket path set, the code does not
substitute (source line 308 requires `!options.socketPath`), so the claimed
equivalence fails at this input. -/
theorem C3_counterexample :
    ¬ ((patched true "on" false socketPathOptions ≠ PatchCall.originalUnmodified) ↔
        socketPathOptions.agent = none) := by
  decide

/-- C3 (amended): for every call to a patched entry point, when the effective
mode is `off` the original function is invoked with the arguments unmodified;
when the mode is `on` an agent is substituted exactly when the caller supplied
neither an agent nor a socket path; when the mode is `override` an agent is
substituted exactly when the socket path is unset and the supplied agent is
not already a `ProxyAgent`; and the per-call override field determines the
effective mode exactly in the `onRequest` variants (`_vscodeProxySupport`
preferred over `_vscodeSystemProxy`), while the run-last `default` variant
(`onRequest = false`) always uses the global mode. -/
theorem C3_patch_decision (onReq : Bool) (setting : String) (isHttps : Bool)
    (opts : RequestOptions) :
    (effectiveConfig onReq opts setting = "off" →
        patched onReq setting isHttps opts = .originalUnmodified)
  ∧ (effectiveConfig onReq opts setting = "on" →
        (patched onReq setting isHttps opts =
            .originalWithProxyAgent (if isHttps then 443 else 80) ↔
          opts.socketPath = "" ∧ opts.agent = none))
  ∧ (effectiveConfig onReq opts setting = "override" →
        (patched onReq setting isHttps opts =
            .originalWithProxyAgent (if isHttps then 443 else 80) ↔
          opts.socketPath = "" ∧ agentIsProxyAgent opts.agent = false))
  ∧ (patched onReq setting isHttps opts = .originalUnmodified ∨
      patched onReq setting isHttps opts =
        .originalWithProxyAgent (if isHttps then 443 else 80))
  ∧ (onReq = true → opts.vscodeProxySupport ≠ "" →
        effectiveConfig onReq opts setting = opts.vscodeProxySupport)
  ∧ (onReq = true → opts.vscodeProxySupport = "" → opts.vscodeSystemProxy ≠ "" →
        effectiveConfig onReq opts setting = opts.vscodeSystemProxy)
  ∧ (onReq = false → effectiveConfig onReq opts setting = setting) := by
  refine ⟨?_, ?_, ?_, ?_, ?_, ?_, ?_⟩
  · intro h
    simp [patched, h]
  · intro h
    have hpa : opts.agent = none → agentIsProxyAgent opts.agent = false := by
      intro ha
      simp [ha, agentIsProxyAgent]
    simp only [patched, h]
    by_cases hsp : opts.socketPath = "" <;> by_cases hag : opts.agent = none <;>
      simp [hsp, hag, hpa, agentIsProxyAgent]
  · intro h
    simp only [patched, h]
    by_cases hsp : opts.socketPath = "" <;>
      by_cases hpa : agentIsProxyAgent opts.agent = false <;>
        simp [hsp, hpa]
  · unfold patched
    dsimp only
    split
    · exact Or.inl rfl
    split
    · exact Or.inr rfl
    · exact Or.inl rfl
  · intro h1 h2
    simp [effectiveConfig, h1, h2]
  · intro h1 h2 h3
    simp [effectiveConfig, h1, h2, h3]
  · intro h1
    simp [effectiveConfig, h1]

/-- C3 witness: mode `off` passes through unmodified; mode `on` with nothing
else set substitutes an agent; and in an `onRequest` variant the per-call
override field is the effective mode. -/
theorem C3_patch_decision_witness :
    patched true "off" false plainOptions = PatchCall.originalUnmodified ∧
    patched true "on" false plainOptions = PatchCall.originalWithProxyAgent 80 ∧
    effectiveConfig true ⟨"", none, "override", ""⟩ "on" = "override" := by
  refine ⟨?_, ?_, ?_⟩
  · exact (C3_patch_decision true "off" false plainOptions).1 (by decide)
  · have h := ((C3_patch_decision true "on" false plainOptions).2.1 (by decide)).mpr
      (by decide)
    simpa using h
  · exact (C3_patch_decision true "on" false ⟨"", none, "override", ""⟩).2.2.2.2.1 rfl
      (by decide)

/-! ## Claim C4 -/

/-- C4 counterexample: two requests resolved through `"PROXY a:b"` that both
terminate with HTTP 200 do NOT produce the bucket
`{proxy := "a:b", connection := "HTTP", code := "HTTP_200", count := 2}`:
the bucket's proxy field is the first whitespace token of the spec string,
which for `"PROXY a:b"` is the type token `"PROXY"`, not the address `"a:b"`. -/
theorem C4_counterexample :
    collectResultOnResponse (collectResultOnResponse [] (some "PROXY a:b") "HTTP" 200)
        (some "PROXY a:b") "HTTP" 200 ≠
      [⟨"a:b", "HTTP", "HTTP_200", 2⟩] := by
  decide

/-- C4 (amended): two requests resolved through `"PROXY a:b"` that both
terminate with an HTTP 200 response produce exactly one bucket, equal to
`{proxy := "PROXY", connection := "HTTP", code := "HTTP_200", count := 2}`,
the bucket's proxy field being the trimmed first-whitespace-token of the
proxy specification string (for `"PROXY a:b"` that token is `"PROXY"`), or
`"EMPTY"` when the specification was falsy. -/
theorem C4_outcome_aggregation :
    collectResultOnResponse (collectResultOnResponse [] (some "PROXY a:b") "HTTP" 200)
        (some "PROXY a:b") "HTTP" 200 =
      [⟨"PROXY", "HTTP", "HTTP_200", 2⟩] ∧
    extractProxyToken (some "PROXY a:b") = jsFirstToken (jsTrim "PROXY a:b") ∧
    extractProxyToken none = "EMPTY" ∧
    extractProxyToken (some "") = "EMPTY" := by
  refine ⟨by decide, rfl, rfl, by decide⟩

/-! ## Claim C5 -/

/-- The compiled no-proxy value: trim then lower-case. -/
def noProxyValue (envValue : Option String) : String :=
  jsToLower (jsTrim (envValue.getD ""))

theorem noProxyFromEnv_star (envValue : Option String)
    (h : noProxyValue envValue = "*") :
    ∀ hostname port, noProxyFromEnv envValue hostname port = true := by
  intro hostname port
  unfold noProxyFromEnv
  rw [show jsToLower (jsTrim (envValue.getD "")) = noProxyValue envValue from rfl, h]
  simp

theorem noProxyFromEnv_empty (envValue : Option String)
    (h1 : noProxyValue envValue ≠ "*")
    (h2 : noProxyFilters (noProxyValue envValue) = []) :
    ∀ hostname port, noProxyFromEnv envValue hostname port = false := by
  intro hostname port
  unfold noProxyFromEnv
  rw [show jsToLower (jsTrim (envValue.getD "")) = noProxyValue envValue from rfl]
  rw [if_neg h1, h2]
  simp

theorem noProxyFromEnv_iff (envValue : Option String) (hostname port : String)
    (h1 : noProxyValue envValue ≠ "*") :
    (noProxyFromEnv envValue hostname port = true ↔
      ∃ f ∈ noProxyFilters (noProxyValue envValue),
        jsEndsWith ("." ++ jsToLower hostname) f.domain = true ∧
          (jsTruthy f.port = false ∨ port = f.port.getD "")) := by
  unfold noProxyFromEnv
  rw [show jsToLower (jsTrim (envValue.getD "")) = noProxyValue envValue from rfl]
  rw [if_neg h1]
  by_cases h2 : (noProxyFilters (noProxyValue envValue)).length = 0
  · rw [if_pos h2]
    rw [List.length_eq_zero] at h2
    simp [h2]
  · rw [if_neg h2]
    rw [List.any_eq_true]
    constructor
    · rintro ⟨f, hf, hpred⟩
      refine ⟨f, hf, ?_⟩
      simp only [Bool.and_eq_true, Bool.or_eq_true, Bool.not_eq_true', decide_eq_true_eq] at hpred
      exact ⟨hpred.1, hpred.2⟩
    · rintro ⟨f, hf, hends, hport⟩
      refine ⟨f, hf, ?_⟩
      simp only [Bool.and_eq_true, Bool.or_eq_true, Bool.not_eq_true', decide_eq_true_eq]
      exact ⟨hends, hport⟩

/-- C5: the no-proxy list compiler.  A raw value whose trimmed lower-cased
form is `"*"` yields the always-true predicate; a value that yields no
parsable entry (in particular the empty value) yields the always-false
predicate; otherwise the predicate holds for a hostname/port pair exactly when
some compiled entry (comma-separated, non-empty name, normalized to a
leading-dot suffix) is a suffix of `"." + hostname.toLowerCase()` and either
carries no (truthy) port or carries a port equal, as strings, to the request's
port.  For the list `".foo.com,bar.com:8080"`: `"x.foo.com"` matches with any
port, `"bar.com"` matches with port `"8080"` but not `"80"`, and
`"foo.com.evil.com"` matches with no port. -/
theorem C5_no_proxy (envValue : Option String) (hostname port : String) :
    (noProxyValue envValue = "*" →
        noProxyFromEnv envValue hostname port = true)
  ∧ (noProxyValue envValue ≠ "*" →
      noProxyFilters (noProxyValue envValue) = [] →
        noProxyFromEnv envValue hostname port = false)
  ∧ (noProxyValue envValue ≠ "*" →
        (noProxyFromEnv envValue hostname port = true ↔
          ∃ f ∈ noProxyFilters (noProxyValue envValue),
            jsEndsWith ("." ++ jsToLower hostname) f.domain = true ∧
              (jsTruthy f.port = false ∨ port = f.port.getD "")))
  ∧ noProxyFromEnv (some ".foo.com,bar.com:8080") "x.foo.com" port = true
  ∧ noProxyFromEnv (some ".foo.com,bar.com:8080") "bar.com" "8080" = true
  ∧ noProxyFromEnv (some ".foo.com,bar.com:8080") "bar.com" "80" = false
  ∧ noProxyFromEnv (some ".foo.com,bar.com:8080") "foo.com.evil.com" port = false := by
  refine ⟨?_, ?_, ?_, ?_, by decide, by decide, ?_⟩
  · intro h
    exact noProxyFromEnv_star envValue h hostname port
  · intro h1 h2
    exact noProxyFromEnv_empty envValue h1 h2 hostname port
  · intro h1
    exact noProxyFromEnv_iff envValue hostname port h1
  · rfl
  · rfl

/-- C5 witness: the star clause at the concrete value `" * "`, and the
characterization clause at the concrete list, hostname `"bar.com"` and port
`"8080"`. -/
theorem C5_no_proxy_witness :
    noProxyFromEnv (some " * ") "whatever.com" "80" = true ∧
    (noProxyFromEnv (some ".foo.com,bar.com:8080") "bar.com" "8080" = true ↔
      ∃ f ∈ noProxyFilters (noProxyValue (some ".foo.com,bar.com:8080")),
        jsEndsWith ("." ++ jsToLower "bar.com") f.domain = true ∧
          (jsTruthy f.port = false ∨ "8080" = f.port.getD "")) := by
  constructor
  · exact (C5_no_proxy (some " * ") "whatever.com" "80").1 (by decide)
  · exact (C5_no_proxy (some ".foo.com,bar.com:8080") "bar.com" "8080").2.2.1 (by decide)

/-! ## Claim C6 -/

/-- C6: the configured-proxy-URL parser trims its input (absent values count
as empty), returns `undefined` when `"://"` does not occur, and otherwise
lower-cases the scheme before the first `"://"` and maps `http`/`https`/`socks`
to the serialized HTTP/HTTPS/SOCKS proxy spec carrying the remainder of the
string unparsed and case-preserved, every other scheme to `undefined`.
Concretely: `"http://proxy:8080"` parses to the HTTP spec for `"proxy:8080"`
(serialized `"PROXY proxy:8080"`), `"HTTP://Proxy:8080"` to the HTTP spec for
the case-preserved `"Proxy:8080"`, while `"ftp://x"`, `""` and an absent value
parse to `undefined`. -/
theorem C6_config_url (configURL : Option String) :
    (indexOfList "://".data (jsTrim (configURL.getD "")).data = none →
        proxyFromConfigURL configURL = none)
  ∧ (∀ i, indexOfList "://".data (jsTrim (configURL.getD "")).data = some i →
        proxyFromConfigURL configURL =
          (schemeToSpec (jsToLower ⟨(jsTrim (configURL.getD "")).data.take i⟩)
              ⟨(jsTrim (configURL.getD "")).data.drop (i + 3)⟩).map ProxySpec.serialize)
  ∧ proxyFromConfigURL (some "http://proxy:8080") = some (ProxySpec.serialize (.httpProxy "proxy:8080"))
  ∧ proxyFromConfigURL (some "HTTP://Proxy:8080") = some (ProxySpec.serialize (.httpProxy "Proxy:8080"))
  ∧ proxyFromConfigURL (some "ftp://x") = none
  ∧ proxyFromConfigURL (some "") = none
  ∧ proxyFromConfigURL none = none := by
  refine ⟨?_, ?_, by decide, by decide, by decide, by decide, by decide⟩
  · intro h
    unfold proxyFromConfigURL
    dsimp only
    rw [h]
  · intro i h
    unfold proxyFromConfigURL
    dsimp only
    rw [h]
    unfold schemeToSpec
    by_cases h1 : jsToLower ⟨(jsTrim (configURL.getD "")).data.take i⟩ = "http"
    · simp [h1, ProxySpec.serialize]
    · by_cases h2 : jsToLower ⟨(jsTrim (configURL.getD "")).data.take i⟩ = "https"
      · simp [h1, h2, ProxySpec.serialize]
      · by_cases h3 : jsToLower ⟨(jsTrim (configURL.getD "")).data.take i⟩ = "socks"
        · simp [h1, h2, h3, ProxySpec.serialize]
        · simp [h1, h2, h3]

/-- C6 witness: the no-separator clause at `"nourl"`, and the scheme-mapping
clause at `"socks://h:1"` with separator index 5. -/
theorem C6_config_url_witness :
    proxyFromConfigURL (some "nourl") = none ∧
    proxyFromConfigURL (some "socks://h:1") =
      (schemeToSpec (jsToLower ⟨(jsTrim "socks://h:1").data.take 5⟩)
          ⟨(jsTrim "socks://h:1").data.drop 8⟩).map ProxySpec.serialize := by
  constructor
  · exact (C6_config_url (some "nourl")).1 (by decide)
  · exact (C6_config_url (some "socks://h:1")).2.1 5 (by decide)

/-! ## Claim C7 -/

theorem getCachedProxy_snd_of_falsy (cs : CacheState) (k : String) :
    jsTruthy (getCachedProxy cs k).1 = false → (getCachedProxy cs k).2 = cs := by
  unfold getCachedProxy
  dsimp only
  split_ifs with hc ho
  · intro h
    dsimp only at h
    rw [hc] at h
  · intro h
    dsimp only at h
    rw [ho] at h
    exact absurd h (by decide)
  · intro _
    rfl

@[simp] theorem fulfilled_state_settingsProxy (st : EngineState) (k : String)
    (v : Option String) (e : Nat) :
    (resolveProxyFulfilled st k v e).state.settingsProxy = st.settingsProxy := rfl

@[simp] theorem fulfilled_state_envProxy (st : EngineState) (k : String)
    (v : Option String) (e : Nat) :
    (resolveProxyFulfilled st k v e).state.envProxy = st.envProxy := rfl

@[simp] theorem fulfilled_state_envNoProxy (st : EngineState) (k : String)
    (v : Option String) (e : Nat) :
    (resolveProxyFulfilled st k v e).state.envNoProxy = st.envNoProxy := rfl

@[simp] theorem fulfilled_state_cacheState (st : EngineState) (k : String)
    (v : Option String) (e : Nat) :
    (resolveProxyFulfilled st k v e).state.cacheState = cacheProxy st.cacheState k v := rfl

@[simp] theorem fulfilled_state_timeout (st : EngineState) (k : String)
    (v : Option String) (e : Nat) :
    (resolveProxyFulfilled st k v e).state.timeout = st.timeout := rfl

@[simp] theorem fulfilled_state_results (st : EngineState) (k : String)
    (v : Option String) (e : Nat) :
    (resolveProxyFulfilled st k v e).state.results = st.results := rfl

theorem miss_state_eq_armTimer (st : EngineState) (u : ParsedUrl) (t : Nat)
    (h5 : jsTruthy (getCachedProxy st.cacheState (getCacheKey u)).1 = false) :
    { armTimer st t with cacheState := (getCachedProxy st.cacheState (getCacheKey u)).2 } =
      armTimer st t := by
  rw [getCachedProxy_snd_of_falsy _ _ h5, ← armTimer_cacheState st t]

/-- C7 counterexample: the claim, quantified over whatever the external
resolver fulfilled with, fails when the resolver fulfilled with an absent
spec: the first resolution stores `undefined` under the origin's key, yet the
second resolution of the same origin is asynchronous again (the external
resolver is invoked a second time) instead of being served synchronously from
the cache. -/
theorem C7_counterexample :
    (resolveProxy testState testUrl 80 0).isSync = false ∧
    (resolveProxy (resolveProxyFulfilled ((resolveProxy testState testUrl 80 0).state)
        (getCacheKey testUrl) none 5).state testUrl 80 9).isSync = false := by
  decide

/-- C7 (amended): for a request URL taken by no earlier precedence step, the
first resolution of an origin is asynchronous; provided the external resolver
fulfilled with a non-empty spec `p`, the callback delivers `p`, and a second
resolution of the same origin (with no intervening configuration change) is
synchronous, delivers exactly the stored spec `p` from the cache, is counted
as a cache hit, and does not invoke the external resolver again (the outcome
is `sync`, not `async`; an empty or absent stored spec is instead treated as
a miss, see the cache-miss claims). -/
theorem C7_cache_round_trip (st : EngineState) (u : ParsedUrl) (d t t2 e : Nat) (p : String)
    (h1 : isLoopbackHost u.hostname = false)
    (h2 : st.envNoProxy u.hostname (jsOrString u.port (toString d)) = false)
    (h3 : jsTruthy st.settingsProxy = false)
    (h4 : jsTruthy st.envProxy = false)
    (h5 : jsTruthy (getCachedProxy st.cacheState (getCacheKey u)).1 = false)
    (hp : p ≠ "") :
    resolveProxy st u d t = .async (getCacheKey u) (armTimer st t)
  ∧ (resolveProxyFulfilled ((resolveProxy st u d t).state) (getCacheKey u) (some p) e).callbackValue
      = some p
  ∧ (resolveProxy (resolveProxyFulfilled ((resolveProxy st u d t).state)
        (getCacheKey u) (some p) e).state u d t2).isSync = true
  ∧ ∃ st3,
      resolveProxy (resolveProxyFulfilled ((resolveProxy st u d t).state)
          (getCacheKey u) (some p) e).state u d t2 = .sync (some p) st3 ∧
      st3.counters.cacheCount =
        (resolveProxyFulfilled ((resolveProxy st u d t).state)
          (getCacheKey u) (some p) e).state.counters.cacheCount + 1 := by
  have hmiss0 := resolveProxy_cache_miss st u d t h1 h2 h3 h4 h5
  have hmiss : resolveProxy st u d t = .async (getCacheKey u) (armTimer st t) := by
    rw [hmiss0, miss_state_eq_armTimer st u t h5]
  refine ⟨hmiss, rfl, ?_, ?_⟩
  all_goals {
    have hstate : (resolveProxy st u d t).state = armTimer st t := by rw [hmiss]; rfl
    have hfst : (getCachedProxy (resolveProxyFulfilled ((resolveProxy st u d t).state)
        (getCacheKey u) (some p) e).state.cacheState (getCacheKey u)).1 = some p := by
      rw [fulfilled_state_cacheState, hstate, armTimer_cacheState]
      exact getCachedProxy_after_cacheProxy st.cacheState (getCacheKey u) (some p)
        (jsTruthy_some_ne p hp)
    have hhit : jsTruthy (getCachedProxy (resolveProxyFulfilled ((resolveProxy st u d t).state)
        (getCacheKey u) (some p) e).state.cacheState (getCacheKey u)).1 = true := by
      rw [hfst]
      exact jsTruthy_some_ne p hp
    have hresolved := resolveProxy_cache_hit
      (resolveProxyFulfilled ((resolveProxy st u d t).state) (getCacheKey u) (some p) e).state
      u d t2 h1 (by rw [fulfilled_state_envNoProxy, hstate, armTimer_envNoProxy]; exact h2)
      (by rw [fulfilled_state_settingsProxy, hstate, armTimer_settingsProxy]; exact h3)
      (by rw [fulfilled_state_envProxy, hstate, armTimer_envProxy]; exact h4) hhit
    first
      | (rw [hresolved]; rfl)
      | (refine ⟨_, by rw [hresolved, hfst], ?_⟩
         rw [armTimer_counters])
  }

/-- C7 witness: the concrete round trip at the unconfigured engine state with
resolver result `"PROXY p:1"`. -/
theorem C7_cache_round_trip_witness :
    resolveProxy testState testUrl 80 0 = .async (getCacheKey testUrl) (armTimer testState 0) ∧
    (resolveProxy (resolveProxyFulfilled ((resolveProxy testState testUrl 80 0).state)
        (getCacheKey testUrl) (some "PROXY p:1") 5).state testUrl 80 9).isSync = true := by
  have h := C7_cache_round_trip testState testUrl 80 0 9 5 "PROXY p:1" (by decide) (by decide)
    (by decide) (by decide) (by decide) (by decide)
  exact ⟨h.1, h.2.2.1⟩

/-! ## Claim C8 -/

/-- C8: when the external resolver's promise rejects, the engine inserts
nothing into the cache, increments the error counter, invokes the callback
with no spec, logs at error level, and leaves every other piece of engine
state (cache, buckets, settings/environment configuration, timer, and all
other counters) unchanged.  No retry happens: the rejection continuation is a
final completion that performs no further resolution. -/
theorem C8_resolver_rejection (st : EngineState) :
    (resolveProxyRejected st).callbackValue = none
  ∧ (resolveProxyRejected st).logLevel = "error"
  ∧ (resolveProxyRejected st).state.counters.errorCount = st.counters.errorCount + 1
  ∧ (resolveProxyRejected st).state.cacheState = st.cacheState
  ∧ (resolveProxyRejected st).state.results = st.results
  ∧ (resolveProxyRejected st).state.settingsProxy = st.settingsProxy
  ∧ (resolveProxyRejected st).state.envProxy = st.envProxy
  ∧ (resolveProxyRejected st).state.envNoProxy = st.envNoProxy
  ∧ (resolveProxyRejected st).state.timeout = st.timeout
  ∧ (resolveProxyRejected st).state.counters.count = st.counters.count
  ∧ (resolveProxyRejected st).state.counters.duration = st.counters.duration
  ∧ (resolveProxyRejected st).state.counters.cacheCount = st.counters.cacheCount
  ∧ (resolveProxyRejected st).state.counters.envCount = st.counters.envCount
  ∧ (resolveProxyRejected st).state.counters.settingsCount = st.counters.settingsCount
  ∧ (resolveProxyRejected st).state.counters.localhostCount = st.counters.localhostCount
  ∧ (resolveProxyRejected st).state.counters.envNoProxyCount = st.counters.envNoProxyCount :=
  ⟨rfl, rfl, rfl, rfl, rfl, rfl, rfl, rfl, rfl, rfl, rfl, rfl, rfl, rfl, rfl, rfl⟩

/-! ## Claim C9 -/

/-- C9: the flush timer.  (1) A resolution arriving with no pending timer
arms it; (2) a resolution arriving while the timer is pending leaves the
pending timer untouched (never re-armed); (3) the flush clears the timer
handle and atomically resets all counters and the bucket list to empty,
(4) emitting the pre-flush counters, cache size, roll count and ordered
buckets; (5) in any valid event trace, a period that starts with no pending
timer and contains no resolutions contains no flush at all (counters and
buckets remain as the last flush left them); and (6) two flushes can never
happen without an intervening resolution, so the resolution that follows an
idle timeout is preceded by exactly one flush and records into the fresh
period. -/
theorem C9_flush_timer :
    (∀ (st : EngineState) (u : ParsedUrl) (d t : Nat),
        st.timeout = none → ((resolveProxy st u d t).state).timeout = some t)
  ∧ (∀ (st : EngineState) (u : ParsedUrl) (d t t0 : Nat),
        st.timeout = some t0 → ((resolveProxy st u d t).state).timeout = some t0)
  ∧ (∀ st : EngineState, (logEvent st).2 =
        { st with timeout := none, counters := emptyCounters, results := [] })
  ∧ (∀ st : EngineState, (logEvent st).1 = ⟨st.counters.count, st.counters.duration,
        st.counters.errorCount, st.counters.cacheCount, st.cacheState.cache.length,
        st.cacheState.cacheRolls, st.counters.envCount, st.counters.settingsCount,
        st.counters.localhostCount, st.counters.envNoProxyCount, st.results⟩)
  ∧ (∀ (st : EngineState) (evs : List EngineEvent),
        ValidTrace st evs → st.timeout = none →
        (∀ e ∈ evs, e = EngineEvent.timerFire) → evs = [])
  ∧ (∀ (st : EngineState) (es : List EngineEvent),
        ¬ ValidTrace st (.timerFire :: .timerFire :: es)) := by
  refine ⟨?_, ?_, fun st => rfl, fun st => rfl, ?_, ?_⟩
  · intro st u d t h
    rw [resolveProxy_state_timeout]
    exact armTimer_timeout_of_none st t h
  · intro st u d t t0 h
    rw [resolveProxy_state_timeout]
    exact armTimer_timeout_of_some st t t0 h
  · intro st evs hv h he
    cases evs with
    | nil => rfl
    | cons e es => exact absurd h (hv.1 (he e (List.mem_cons_self e es)))
  · intro st es hv
    exact (hv.2.1 rfl) rfl

/-- C9 witness: at the unconfigured state (no pending timer) a resolution at
time 7 arms the timer at 7, and a trace of two consecutive timer expiries
without a resolution in between is invalid. -/
theorem C9_flush_timer_witness :
    ((resolveProxy testState testUrl 80 7).state).timeout = some 7 ∧
    ¬ ValidTrace testState [EngineEvent.timerFire, EngineEvent.timerFire] := by
  constructor
  · exact C9_flush_timer.1 testState testUrl 80 7 rfl
  · exact C9_flush_timer.2.2.2.2.2 testState []

/-! ## Claim C10 -/

theorem getCachedProxy_falsy_parts (cs : CacheState) (k : String)
    (h : jsTruthy (getCachedProxy cs k).1 = false) :
    jsTruthy (mapGet cs.cache k).join = false ∧
      jsTruthy (mapGet cs.oldCache k).join = false := by
  revert h
  unfold getCachedProxy
  dsimp only
  split_ifs with hc ho
  · intro h
    dsimp only at h
    rw [hc] at h
    exact absurd h (by decide)
  · intro h
    dsimp only at h
    rw [ho] at h
    exact absurd h (by decide)
  · intro _
    exact ⟨by simpa using hc, by simpa using ho⟩

theorem armTimer_timeout_ne_none (st : EngineState) (t : Nat) :
    (armTimer st t).timeout ≠ none := by
  unfold armTimer
  split
  · simp
  · next h => exact h

theorem armTimer_eq_of_timeout_ne (st : EngineState) (t : Nat) (h : st.timeout ≠ none) :
    armTimer st t = st := by
  unfold armTimer
  rw [if_neg h]

/-- C10: when the external resolver fulfills with an absent (`undefined`)
spec, the engine still inserts the key into the current cache generation with
that absent value: the entry is present (`mapGet` finds it, storing `none`),
it occupies capacity (the current generation's size grows by one, so it
counts toward triggering a generation rollover), and the callback delivers no
spec — yet a subsequent resolution of the same origin treats the stored
absent value as a cache miss and invokes the external resolver again, so a
successful-but-empty resolution is never served from the cache.  (Stated for
a fresh key whose insertion does not itself reach capacity.) -/
theorem C10_undefined_resolution (st : EngineState) (u : ParsedUrl) (d t t2 e : Nat)
    (h1 : isLoopbackHost u.hostname = false)
    (h2 : st.envNoProxy u.hostname (jsOrString u.port (toString d)) = false)
    (h3 : jsTruthy st.settingsProxy = false)
    (h4 : jsTruthy st.envProxy = false)
    (h5 : jsTruthy (getCachedProxy st.cacheState (getCacheKey u)).1 = false)
    (hfresh : mapHas st.cacheState.cache (getCacheKey u) = false)
    (hroom : st.cacheState.cache.length + 1 < maxCacheEntries) :
    resolveProxy st u d t = .async (getCacheKey u) (armTimer st t)
  ∧ (resolveProxyFulfilled ((resolveProxy st u d t).state)
      (getCacheKey u) none e).callbackValue = none
  ∧ mapGet (resolveProxyFulfilled ((resolveProxy st u d t).state)
      (getCacheKey u) none e).state.cacheState.cache (getCacheKey u) = some none
  ∧ (resolveProxyFulfilled ((resolveProxy st u d t).state)
      (getCacheKey u) none e).state.cacheState.cache.length
      = st.cacheState.cache.length + 1
  ∧ resolveProxy (resolveProxyFulfilled ((resolveProxy st u d t).state)
        (getCacheKey u) none e).state u d t2
      = .async (getCacheKey u)
        (resolveProxyFulfilled ((resolveProxy st u d t).state)
          (getCacheKey u) none e).state := by
  have hmiss0 := resolveProxy_cache_miss st u d t h1 h2 h3 h4 h5
  have hmiss : resolveProxy st u d t = .async (getCacheKey u) (armTimer st t) := by
    rw [hmiss0, miss_state_eq_armTimer st u t h5]
  have hstate : (resolveProxy st u d t).state = armTimer st t := by rw [hmiss]; rfl
  have hboth := getCachedProxy_falsy_parts st.cacheState (getCacheKey u) h5
  have hnr : ¬ (mapSet st.cacheState.cache (getCacheKey u) none).length ≥ maxCacheEntries := by
    rw [length_mapSet_of_not_has _ _ _ hfresh]
    omega
  have hcs2 : (resolveProxyFulfilled ((resolveProxy st u d t).state)
      (getCacheKey u) none e).state.cacheState =
      { st.cacheState with cache := mapSet st.cacheState.cache (getCacheKey u) none } := by
    rw [fulfilled_state_cacheState, hstate, armTimer_cacheState,
      cacheProxy_no_roll _ _ _ hnr]
  refine ⟨hmiss, rfl, ?_, ?_, ?_⟩
  · rw [hcs2]
    exact mapGet_mapSet_self _ _ _
  · rw [hcs2]
    exact length_mapSet_of_not_has _ _ _ hfresh
  · have hcur : jsTruthy ((mapGet (resolveProxyFulfilled ((resolveProxy st u d t).state)
        (getCacheKey u) none e).state.cacheState.cache (getCacheKey u)).join) = false := by
      rw [hcs2]
      dsimp only
      rw [mapGet_mapSet_self]
      rfl
    have hold : jsTruthy ((mapGet (resolveProxyFulfilled ((resolveProxy st u d t).state)
        (getCacheKey u) none e).state.cacheState.oldCache (getCacheKey u)).join) = false := by
      rw [hcs2]
      exact hboth.2
    have h5' : jsTruthy (getCachedProxy (resolveProxyFulfilled ((resolveProxy st u d t).state)
        (getCacheKey u) none e).state.cacheState (getCacheKey u)).1 = false := by
      rw [getCachedProxy_miss _ _ hcur hold]
      exact hold
    have hx := resolveProxy_cache_miss (resolveProxyFulfilled ((resolveProxy st u d t).state)
        (getCacheKey u) none e).state u d t2 h1
      (by rw [fulfilled_state_envNoProxy, hstate, armTimer_envNoProxy]; exact h2)
      (by rw [fulfilled_state_settingsProxy, hstate, armTimer_settingsProxy]; exact h3)
      (by rw [fulfilled_state_envProxy, hstate, armTimer_envProxy]; exact h4) h5'
    rw [hx, getCachedProxy_snd_of_falsy _ _ h5',
      armTimer_eq_of_timeout_ne _ _ (by
        rw [fulfilled_state_timeout, hstate]
        exact armTimer_timeout_ne_none st t)]

/-- C10 witness: the concrete undefined-fulfillment run at the unconfigured
state: the key is stored with an absent value, and the second resolution of
the same origin invokes the external resolver again. -/
theorem C10_undefined_resolution_witness :
    mapGet (resolveProxyFulfilled ((resolveProxy testState testUrl 80 0).state)
        (getCacheKey testUrl) none 5).state.cacheState.cache (getCacheKey testUrl) = some none ∧
    resolveProxy (resolveProxyFulfilled ((resolveProxy testState testUrl 80 0).state)
        (getCacheKey testUrl) none 5).state testUrl 80 9 = .async (getCacheKey testUrl)
      (resolveProxyFulfilled ((resolveProxy testState testUrl 80 0).state)
        (getCacheKey testUrl) none 5).state := by
  have h := C10_undefined_resolution testState testUrl 80 0 9 5 (by decide) (by decide)
    (by decide) (by decide) (by decide) (by decide) (by decide)
  exact ⟨h.2.2.1, h.2.2.2.2⟩
